import Mathlib

/-!
Verification development for the FROST blueprint service node.

The Rust sources are shallowly embedded as executable Lean definitions:

* machine integers (`u16`, `u64`) become `Nat` with explicit `% 2^w`
  wrapping where the source can overflow;
* ciphersuite scalars become canonical representatives (`Nat` values
  below the field modulus `q`) and field arithmetic happens in `ZMod q`;
* elliptic-curve group elements appear in exponent representation: the
  point `c * G` is represented by the scalar `c`.  Only equalities of
  group elements matter for the properties proved here, and the honest
  protocol never relies on discrete-log hardness for them;
* fallible Rust code returning `Result` becomes `Except`;
* `BTreeMap` collections become association lists (`List (Nat x _)`)
  whose honest instantiations carry distinct keys.
-/

/-- Modulus of `u16` arithmetic (`2 ^ 16`). -/
def U16_MOD : Nat := 65536

/-- Order of the ed25519 scalar field, the modulus of the
`FROST-ED25519-SHA512-v1` ciphersuite identifiers. -/
def ed25519ScalarOrder : Nat := 2 ^ 252 + 27742317777372353535851937790883648493

/-- Model of `frost_core::Identifier::try_from(u16)`: the input is reduced
into the scalar field of the ciphersuite (modulus `q`) and a zero scalar is
rejected (`frost_core` returns a malformed-identifier error there, `none`
here). -/
def Identifier.tryFrom (q v : Nat) : Option Nat :=
  let s := v % q
  if s = 0 then none else some s

/-- Model of `IdentifierWrapper::try_from(value)` from `src/rounds/mod.rs`:
`Identifier::try_from(value + 1)`, where `value + 1` is `u16` addition and
therefore wraps at `2 ^ 16` (release-profile semantics of the source). -/
def IdentifierWrapper.tryFrom (q i : Nat) : Option Nat :=
  Identifier.tryFrom q ((i + 1) % U16_MOD)

/-- Model of `IdentifierWrapper::as_u16` from `src/rounds/mod.rs`: serialize
the scalar in little-endian form, read the low two bytes as a `u16` and
apply `saturating_sub(1)`.  For a canonical representative `s < q` the low
two bytes read back as `s % 2 ^ 16`, and `Nat` subtraction is already
saturating. -/
def IdentifierWrapper.asU16 (s : Nat) : Nat :=
  s % U16_MOD - 1

/-- Model of the in-memory key-value store `MemKVStore` from
`src/kv/mem.rs`: a mutex-guarded `HashMap`, embedded as a total map from
keys to optional values. -/
structure MemKVStore (K V : Type) where
  store : K → Option V

/-- Fresh empty store (`MemKVStore::new`). -/
def MemKVStore.empty {K V : Type} : MemKVStore K V :=
  ⟨fun _ => none⟩

/-- Model of `MemKVStore::insert`, i.e. `HashMap::insert`: the new binding
unconditionally replaces any existing binding for the same key. -/
def MemKVStore.insert {K V : Type} [DecidableEq K]
    (m : MemKVStore K V) (k : K) (v : V) : MemKVStore K V :=
  ⟨fun k2 => if k2 = k then some v else m.store k2⟩

/-- Model of `MemKVStore::get`. -/
def MemKVStore.get {K V : Type} (m : MemKVStore K V) (k : K) : Option V :=
  m.store k

/-- Storage-layer error kind (`std::io::Error` in the trait signature). -/
inductive StoreError : Type where
  | ioFailure : StoreError

/-- Model of the `KVStore::set` implementation for `MemKVStore`
(`src/kv/mem.rs` lines 71-74): it performs `insert` and always returns
`Ok(())`.  The state-passing embedding returns the updated store. -/
def MemKVStore.set {K V : Type} [DecidableEq K]
    (m : MemKVStore K V) (k : K) (v : V) : Except StoreError (MemKVStore K V) :=
  .ok (m.insert k v)

/-- Model of the keygen persistence step at `src/keygen.rs` line 280:
`kv.set(pubkey, serde_json::to_vec(&entry)?)?`, storing the serialized
keygen entry under the lowercase hex of the verifying key. -/
def KeygenInternal.persistEntry (kv : MemKVStore String (List Nat))
    (pubkeyHex : String) (entryBytes : List Nat) :
    Except StoreError (MemKVStore String (List Nat)) :=
  MemKVStore.set kv pubkeyHex entryBytes

/-- Model of the signer-selection seed computed in `signing_internal`
(`src/sign.rs` lines 180-184).  The source builds a buffer
`key = pub_key ++ msg` but then hashes `pub_key`, so the buffer holding the
message is dead and only the verifying-key bytes enter the hash (the open
question recorded in section 9 of the specification).  `keccak256` is an
arbitrary (deterministic) hash function parameter. -/
def signersSeed (keccak256 : List Nat → List Nat)
    (pubKey msg : List Nat) : List Nat :=
  let _key := pubKey ++ msg
  keccak256 pubKey

/-- Model of the signer-set selection in `signing_internal` (`src/sign.rs`
lines 186-196): enumerate the participant map in its canonical order,
then sample `t` entries without replacement using a ChaCha20 RNG seeded
with `signersSeed`.  `chooseMultiple seed xs t` abstracts
`ChaChaRng::from_seed` composed with `choose_multiple`, both of which are
deterministic functions of the seed and the inputs. -/
def selectSigners {A : Type} (keccak256 : List Nat → List Nat)
    (chooseMultiple : List Nat → List (Nat × A) → Nat → List (Nat × A))
    (participants : List A) (pubKey msg : List Nat) (t : Nat) :
    List (Nat × A) :=
  chooseMultiple (signersSeed keccak256 pubKey msg) participants.enum t

/-- Error type of the `sign` job surface (`src/sign.rs` lines 26-56). -/
inductive SignJobError : Type where
  | unknownCiphersuite (id : String)
  | keyNotFound
  | selfNotInOperators
  | selfNotInSigners
  | verifyingShareNotFound
  | protocolFailure
  | frostFailure
  | ioFailure
  | other (msg : String)

/-- Model of the final `match res` of the `sign` job (`src/sign.rs` lines
146-157), mapping the internal signing result to the value returned to the
job runner.  The arms appear in source order. -/
def signJobMapResult {Sig : Type}
    (res : Except SignJobError (Option Sig)) : Except SignJobError Sig :=
  match res with
  | .ok (some signature) => .ok signature
  | .error .selfNotInSigners =>
      .error (.other "Self not in signers list, this is a valid case")
  | .ok none => .error (.other "Signature serialization failed")
  | .error e => .error e

/-- Little-endian byte decomposition of a `u64` (`call_id.to_le_bytes()`). -/
def leBytes8 (x : Nat) : List Nat :=
  (List.range 8).map (fun k => x / 256 ^ k % 256)

/-- Preimage of the stream key used by `keygen_network_backend`
(`src/lib.rs` lines 131-136): the bytes of `"keygen"` followed by the
little-endian call id. -/
def keygenStreamKeyInput (callId : Nat) : List Nat :=
  ("keygen".toList.map Char.toNat) ++ leBytes8 callId

/-- Preimage of the stream key used by `signing_network_backend`
(`src/lib.rs` lines 139-144): the bytes of `"signing"` followed by the
little-endian call id. -/
def signingStreamKeyInput (callId : Nat) : List Nat :=
  ("signing".toList.map Char.toNat) ++ leBytes8 callId

/-- Stream-key preimage actually used by the `sign` job: `src/sign.rs` line
110 builds the transport with `context.keygen_network_backend(current_call_id)`,
so the signing run is multiplexed on the keygen-derived key. -/
def signJobStreamKeyInput (callId : Nat) : List Nat :=
  keygenStreamKeyInput callId

/-- Association-list lookup modelling `BTreeMap::get` on maps keyed by
identifier representatives. -/
def btreeGet {α : Type} (k : Nat) : List (Nat × α) → Option α
  | [] => none
  | p :: rest => if p.1 = k then some p.2 else btreeGet k rest

/-- Error raised by the modelled `frost_core` primitives. -/
inductive FrostError : Type where
  | malformedIdentifier
  | invalidSecretShare
  | invalidMinSigners
  | invalidMaxSigners

/-- Transport-layer errors of the round engines (`IoError` in
`src/rounds/mod.rs` lines 27-39). -/
inductive IoError : Type where
  | sendMessage
  | receiveMessage
  | receiveMessageEof
  | routeReceivedError

/-- Caller-bug errors of the keygen engine (`Bug` in
`src/rounds/keygen.rs` lines 71-76). -/
inductive Keygen.Bug : Type where
  | invalidPartyIndex
  | invalidProtocolParameters

/-- Abort reasons of the keygen engine (`Error` wrapping `Reason` in
`src/rounds/keygen.rs` lines 28-67, with `KeygenAborted::Frost`
flattened into the `aborted` constructor). -/
inductive Keygen.RunError : Type where
  | aborted (e : FrostError)
  | ioError (e : IoError)
  | bug (b : Keygen.Bug)

/-- DKG round-1 broadcast package: the Feldman VSS commitment
`[a_0 * G, ..., a_{t-1} * G]` in exponent representation (the
proof of possession carried by the real package is omitted; all parties
modelled here are honest). -/
structure Round1Package (q : Nat) where
  commitment : List (ZMod q)

/-- Model of the `frost_core` DKG secret package: the own identifier
(canonical representative), the secret polynomial coefficients
`a_0, ..., a_{t-1}`, and `min_signers = t`. -/
structure DkgSecret (q : Nat) where
  identifier : Nat
  coefficients : List (ZMod q)
  minSigners : Nat

/-- Evaluation of the polynomial with the given coefficient list
(constant term first) at `x`. -/
def polyEval {q : Nat} (coeffs : List (ZMod q)) (x : ZMod q) : ZMod q :=
  (coeffs.enum.map (fun p => p.2 * x ^ p.1)).sum

/-- Model of `frost_core::keys::validate_num_of_signers`, which
`dkg::part1` runs first: `min_signers < 2` is rejected with
`InvalidMinSigners`, `max_signers < 2` with `InvalidMaxSigners`, and
`min_signers > max_signers` with `InvalidMinSigners`, in that order. -/
def dkg.validateNumOfSigners (minSigners maxSigners : Nat) :
    Except FrostError Unit :=
  if minSigners < 2 then .error .invalidMinSigners
  else if maxSigners < 2 then .error .invalidMaxSigners
  else if minSigners > maxSigners then .error .invalidMinSigners
  else .ok ()

/-- Model of `frost_core::keys::dkg::part1`: validate `(t, n)` with
`validate_num_of_signers` (so `t = 1` or `n = 1` fails), then sample a
degree-`t - 1` polynomial (the sampled coefficients are an explicit
input standing for the RNG draw) and commit to every coefficient.  In
exponent representation the commitment list is the coefficient list
itself. -/
def dkg.part1 (q : Nat) (identifier n t : Nat) (coeffs : List (ZMod q)) :
    Except FrostError (DkgSecret q × Round1Package q) :=
  match dkg.validateNumOfSigners t n with
  | .error e => .error e
  | .ok _ => .ok (⟨identifier, coeffs, t⟩, ⟨coeffs⟩)

/-- Model of `frost_core::keys::dkg::part2`: for every round-1 sender
`ell`, produce the secret share `f_self(ell)` addressed to `ell`.  The
round-2 secret package carries the same identifier and coefficients. -/
def dkg.part2 (q : Nat) (secret : DkgSecret q)
    (round1Packages : List (Nat × Round1Package q)) :
    DkgSecret q × List (Nat × ZMod q) :=
  (secret,
   round1Packages.map (fun p => (p.1, polyEval secret.coefficients (p.1 : ZMod q))))

/-- Key package produced by DKG part 3 (`frost_core::keys::KeyPackage`):
identifier, secret signing share, group verifying key and `min_signers`. -/
structure KeyPackage (q : Nat) where
  identifier : Nat
  signingShare : ZMod q
  verifyingKey : ZMod q
  minSigners : Nat

/-- Public key package produced by DKG part 3
(`frost_core::keys::PublicKeyPackage`): the per-party verifying shares
and the group verifying key, in exponent representation. -/
structure PublicKeyPackage (q : Nat) where
  verifyingShares : List (Nat × ZMod q)
  verifyingKey : ZMod q

/-- Model of `frost_core::keys::dkg::part3`: verify every received
round-2 share against the Feldman commitment of its sender
(`f_sender(me) * G = sum_k me^k * C_k`, checked in exponent form), then
derive the signing share as the sum of all shares addressed to `me` and
the group verifying key as the sum of all constant-term commitments,
own package included. -/
def dkg.part3 (q : Nat) (secret : DkgSecret q)
    (round1Packages : List (Nat × Round1Package q))
    (round2Packages : List (Nat × ZMod q)) :
    Except FrostError (KeyPackage q × PublicKeyPackage q) :=
  let me : ZMod q := (secret.identifier : ZMod q)
  if round2Packages.all (fun p =>
      match btreeGet p.1 round1Packages with
      | some pkg => decide (polyEval pkg.commitment me = p.2)
      | none => false) then
    let signingShare := polyEval secret.coefficients me +
      (round2Packages.map Prod.snd).sum
    let verifyingKey := secret.coefficients.headI +
      (round1Packages.map (fun p => p.2.commitment.headI)).sum
    let ids : List Nat := secret.identifier :: round1Packages.map Prod.fst
    let verifyingShares : List (Nat × ZMod q) := ids.map (fun ell =>
      (ell, polyEval secret.coefficients (ell : ZMod q) +
        (round1Packages.map (fun p => polyEval p.2.commitment (ell : ZMod q))).sum))
    .ok (⟨secret.identifier, signingShare, verifyingKey, secret.minSigners⟩,
         ⟨verifyingShares, verifyingKey⟩)
  else
    .error .invalidSecretShare

/-- Protocol message of the keygen engine (`Msg` in
`src/rounds/keygen.rs` lines 20-25); the round-2 payload is the secret
share in exponent-free scalar form. -/
inductive Keygen.Msg (q : Nat) : Type where
  | round1 (pkg : Round1Package q)
  | round2 (share : ZMod q)

/-- Outbound message of the round engines (`round_based::Outgoing`):
either a broadcast or a P2P message to the party with the given index. -/
inductive Outgoing (q : Nat) : Type where
  | broadcast (m : Keygen.Msg q)
  | p2p (dest : Nat) (m : Keygen.Msg q)

/-- Model of the index-to-identifier conversion applied to every router
item (`src/rounds/keygen.rs` lines 130-137 and 168-175): each received
`(index, package)` pair is rekeyed by `IdentifierWrapper::try_from(index)`
and the whole collection fails with the first conversion failure, exactly
like the `collect::<Result<BTreeMap<_, _>, _>>()` in the source. -/
def Keygen.collectIdentified (q : Nat) {α : Type} :
    List (Nat × α) → Option (List (Nat × α))
  | [] => some []
  | p :: rest =>
    match IdentifierWrapper.tryFrom q p.1, Keygen.collectIdentified q rest with
    | some ell, some tail => some ((ell, p.2) :: tail)
    | _, _ => none

/-- Model of the keygen engine `run` (`src/rounds/keygen.rs` lines
79-185).  The router is embedded by its observable behaviour: the two
input lists are the `(sender index, payload)` pairs the router delivers
for round 1 and round 2.  The function returns the protocol result
together with the ordered list of messages the party sends, so that
claims about network activity can be stated. -/
def Keygen.run (q t n i : Nat) (coeffs : List (ZMod q))
    (recvRound1 : List (Nat × Round1Package q))
    (recvRound2 : List (Nat × ZMod q)) :
    Except Keygen.RunError (KeyPackage q × PublicKeyPackage q) × List (Outgoing q) :=
  if t < 1 ∨ t > n then
    (.error (.bug .invalidProtocolParameters), [])
  else
    match IdentifierWrapper.tryFrom q i with
    | none => (.error (.bug .invalidPartyIndex), [])
    | some me =>
      match dkg.part1 q me n t coeffs with
      | .error e => (.error (.aborted e), [])
      | .ok (secret1, pkg1) =>
      let sent1 : List (Outgoing q) := [.broadcast (.round1 pkg1)]
      match Keygen.collectIdentified q recvRound1 with
      | none => (.error (.bug .invalidPartyIndex), sent1)
      | some round1Packages =>
        let (secret2, round2Out) := dkg.part2 q secret1 round1Packages
        let sent2 := round2Out.map (fun p =>
          Outgoing.p2p (IdentifierWrapper.asU16 p.1) (Keygen.Msg.round2 p.2))
        match Keygen.collectIdentified q recvRound2 with
        | none => (.error (.bug .invalidPartyIndex), sent1 ++ sent2)
        | some round2Packages =>
          match dkg.part3 q secret2 round1Packages round2Packages with
          | .error e => (.error (.aborted e), sent1 ++ sent2)
          | .ok out => (.ok out, sent1 ++ sent2)

/-- Indices of the parties other than `i` in a run with `n` parties, in
the order the honest router delivers their messages. -/
def othersOf (n i : Nat) : List Nat :=
  (List.range n).filter (fun j => j ≠ i)

/-- Round-1 packages delivered to party `i` in the fully honest
`n`-party execution: every other party `j` broadcasts the commitment
package of its own coefficients, which is exactly the package its
`dkg.part1` call returns whenever `2 ≤ t ≤ n` (`dkg.part1_ok`). -/
def Keygen.honestRecvRound1 (q n : Nat) (coeffs : Nat → List (ZMod q))
    (i : Nat) : List (Nat × Round1Package q) :=
  (othersOf n i).map (fun j => (j, Round1Package.mk (coeffs j)))

/-- Round-2 shares delivered to party `i` in the fully honest execution:
the share `f_j(i + 1)` that party `j` addresses to identifier `i + 1`
in its `dkg.part2` output (the engine routes it to index
`IdentifierWrapper.asU16 (i + 1) = i`). -/
def Keygen.honestRecvRound2 (q n : Nat) (coeffs : Nat → List (ZMod q))
    (i : Nat) : List (Nat × ZMod q) :=
  (othersOf n i).map (fun j => (j, polyEval (coeffs j) ((i + 1 : Nat) : ZMod q)))

/-- Joint verifying key of the honest execution: the sum of every
party's constant coefficient, in exponent representation. -/
def groupPublicKey (q n : Nat) (coeffs : Nat → List (ZMod q)) : ZMod q :=
  ((List.range n).map (fun j => (coeffs j).headI)).sum

/-- Outcome of the hand-rolled message-collection loops of
`keygen_internal` (`src/keygen.rs` lines 173-196 and 231-254).  The
`assert...` outcomes model the `assert!`/`assert_ne!` macro hits, which
abort the whole process instead of surfacing a routing error. -/
inductive KeygenInternal.RecvOutcome (α : Type) : Type where
  | completed (pkgs : List (Nat × α))
  | assertOwnPackage (sender : Nat)
  | assertDuplicate (sender : Nat)
  | streamEnded (received : List (Nat × α))

/-- Model of the `keygen_internal` round-2 receive loop
(`src/keygen.rs` lines 231-254): for each typed inbound message, asserts
the sender is not self, inserts into the map and asserts no previous
entry existed (`assert!(old.is_none(), "Received duplicate Round 2
Package...")`), and stops once `required` messages arrived.  A stream
that ends early leaves the loop with a partially filled map. -/
def KeygenInternal.recvLoop {α : Type} (selfId required : Nat)
    (received : List (Nat × α)) :
    List (Nat × α) → KeygenInternal.RecvOutcome α
  | [] => .streamEnded received
  | m :: rest =>
    if m.1 = selfId then
      .assertOwnPackage m.1
    else if (btreeGet m.1 received).isSome then
      .assertDuplicate m.1
    else
      let received2 := received ++ [(m.1, m.2)]
      if received2.length = required then
        .completed received2
      else
        KeygenInternal.recvLoop selfId required received2 rest

/-- Caller-bug errors of the signing engine (`Bug` in
`src/rounds/sign.rs` lines 79-86). -/
inductive Sign.Bug : Type where
  | invalidPartyIndex
  | invalidProtocolParameters
  | verifyingShareNotFound

/-- Malicious-abort reasons of the signing engine (`SigningAborted` in
`src/rounds/sign.rs` lines 66-75). -/
inductive Sign.Aborted : Type where
  | frost (e : FrostError)
  | invalidSignatureShare (blames : List Nat)

/-- Abort reasons of the signing engine (`Error` wrapping `Reason` in
`src/rounds/sign.rs` lines 33-53). -/
inductive Sign.RunError : Type where
  | aborted (e : Sign.Aborted)
  | ioError (e : IoError)
  | bug (b : Sign.Bug)

/-- Model of the blame-collection loop of the signing engine
(`src/rounds/sign.rs` lines 216-235): for every collected
`(from, share)` pair in order, look up the verifying share of `from` in
the public key package (`Bug::VerifyingShareNotFound` on a miss, the
`?` early return), run `verify_signature_share` (abstracted as the
boolean `verify`), and append `IdentifierWrapper(from).as_u16()` to the
blame list on failure. -/
def Sign.collectBlames {V S : Type} (verifyingShares : List (Nat × V))
    (verify : Nat → V → S → Bool) :
    List (Nat × S) → Except Sign.Bug (List Nat)
  | [] => .ok []
  | p :: rest =>
    match btreeGet p.1 verifyingShares with
    | none => .error .verifyingShareNotFound
    | some vs =>
      match Sign.collectBlames verifyingShares verify rest with
      | .error e => .error e
      | .ok bl =>
        .ok ((if verify p.1 vs p.2 then [] else [IdentifierWrapper.asU16 p.1]) ++ bl)

/-- Model of the share-verification and aggregation tail of the signing
engine (`src/rounds/sign.rs` lines 216-244): if the blame list is
non-empty the run aborts with `SigningAborted::InvalidSignatureShare`
and produces no signature, otherwise the `frost_core::aggregate` result
(given here as `aggregateResult`) is returned, with its error mapped to
`SigningAborted::Frost`. -/
def Sign.verifyShares {V S Sig : Type} (verifyingShares : List (Nat × V))
    (verify : Nat → V → S → Bool) (allShares : List (Nat × S))
    (aggregateResult : Except FrostError Sig) : Except Sign.RunError Sig :=
  match Sign.collectBlames verifyingShares verify allShares with
  | .error b => .error (.bug b)
  | .ok blames =>
    if blames.isEmpty then
      match aggregateResult with
      | .error e => .error (.aborted (.frost e))
      | .ok s => .ok s
    else
      .error (.aborted (.invalidSignatureShare blames))

/-- Predicate describing which collected pairs the verification loop
blames: the verifying share of the sender is present and
`verify_signature_share` fails on it. -/
def Sign.failsVerify {V S : Type} (verifyingShares : List (Nat × V))
    (verify : Nat → V → S → Bool) (p : Nat × S) : Bool :=
  match btreeGet p.1 verifyingShares with
  | some vs => ! verify p.1 vs p.2
  | none => false

/-- Helper: for a sub-`u16` index the wrapper conversion yields the scalar
`i + 1`. -/
theorem IdentifierWrapper.tryFrom_eq_of_lt (q i : Nat) (hq : U16_MOD < q)
    (hi : i + 1 < U16_MOD) : IdentifierWrapper.tryFrom q i = some (i + 1) := by
  unfold IdentifierWrapper.tryFrom Identifier.tryFrom
  rw [Nat.mod_eq_of_lt hi, Nat.mod_eq_of_lt (lt_trans hi hq)]
  simp

/-- C7: for every party index `i` in `[0, n)` with `n ≤ u16::MAX` (and a
ciphersuite scalar field larger than `2 ^ 16`, true of both supported
ciphersuites), `IdentifierWrapper::try_from(i)` succeeds and `as_u16`
recovers `i`: the `+ 1` offset maps index 0 to scalar 1 and the low two
little-endian scalar bytes minus 1 undo it. -/
theorem identifier_index_roundtrip (q n i : Nat) (hq : U16_MOD < q)
    (hn : n ≤ 65535) (hi : i < n) :
    ∃ s, IdentifierWrapper.tryFrom q i = some s ∧ IdentifierWrapper.asU16 s = i := by
  have hi1 : i + 1 < U16_MOD := by
    unfold U16_MOD
    omega
  refine ⟨i + 1, IdentifierWrapper.tryFrom_eq_of_lt q i hq hi1, ?_⟩
  unfold IdentifierWrapper.asU16
  rw [Nat.mod_eq_of_lt hi1]
  omega

/-- Witness for C7 at the ed25519 scalar field and `i = 2`, `n = 3`. -/
theorem identifier_index_roundtrip_witness :
    ∃ s, IdentifierWrapper.tryFrom ed25519ScalarOrder 2 = some s ∧
      IdentifierWrapper.asU16 s = 2 :=
  identifier_index_roundtrip ed25519ScalarOrder 3 2
    (by norm_num [U16_MOD, ed25519ScalarOrder]) (by norm_num) (by norm_num)

/-- C10: at `i = u16::MAX = 65535` the `value + 1` in
`IdentifierWrapper::try_from` wraps to 0, the zero scalar is rejected, and
the keygen engine surfaces the failure as the `InvalidPartyIndex` bug
value before any message is sent, instead of panicking. -/
theorem index_overflow_invalid_party_index (q t n : Nat)
    (coeffs : List (ZMod q)) (r1 : List (Nat × Round1Package q))
    (r2 : List (Nat × ZMod q)) (ht : 1 ≤ t) (htn : t ≤ n) :
    Keygen.run q t n 65535 coeffs r1 r2 =
      (.error (.bug .invalidPartyIndex), []) := by
  unfold Keygen.run
  rw [if_neg (show ¬(t < 1 ∨ t > n) by omega)]
  have hnone : IdentifierWrapper.tryFrom q 65535 = none := by
    unfold IdentifierWrapper.tryFrom Identifier.tryFrom U16_MOD
    norm_num
  rw [hnone]

/-- Witness for C10 in a valid `1`-of-`1` run. -/
theorem index_overflow_invalid_party_index_witness :
    Keygen.run 7 1 1 65535 ([] : List (ZMod 7)) [] [] =
      (.error (.bug .invalidPartyIndex), []) :=
  index_overflow_invalid_party_index 7 1 1 [] [] [] (by decide) (by decide)

/-- C8: for `t = 0` or `t > n` the keygen engine fails with
`Bug::InvalidProtocolParameters` and the outbound message trace is empty:
the parameter check precedes all network activity. -/
theorem keygen_invalid_protocol_parameters (q t n i : Nat)
    (coeffs : List (ZMod q)) (r1 : List (Nat × Round1Package q))
    (r2 : List (Nat × ZMod q)) (h : t = 0 ∨ t > n) :
    Keygen.run q t n i coeffs r1 r2 =
      (.error (.bug .invalidProtocolParameters), []) := by
  unfold Keygen.run
  rw [if_pos (by omega)]

/-- Witness for C8 at `t = 0`, `n = 3`. -/
theorem keygen_invalid_protocol_parameters_witness :
    Keygen.run 7 0 3 0 ([] : List (ZMod 7)) [] [] =
      (.error (.bug .invalidProtocolParameters), []) :=
  keygen_invalid_protocol_parameters 7 0 3 0 [] [] [] (Or.inl rfl)

/-- C2: the signer-selection seed is `keccak256` of the verifying-key
bytes alone, so for a fixed participant map, verifying key and threshold
the selected signer subset is the same for any two messages; all honest
parties evaluating the same data compute the same subset because the
selection is a deterministic function of that data. -/
theorem signer_selection_message_independent {A : Type}
    (keccak256 : List Nat → List Nat)
    (chooseMultiple : List Nat → List (Nat × A) → Nat → List (Nat × A))
    (participants : List A) (pubKey m1 m2 : List Nat) (t : Nat) :
    signersSeed keccak256 pubKey m1 = keccak256 pubKey ∧
    selectSigners keccak256 chooseMultiple participants pubKey m1 t =
      selectSigners keccak256 chooseMultiple participants pubKey m2 t :=
  ⟨rfl, rfl⟩

/-- C3 counterexample: with `"aa" ↦ [1]` already stored, a second
successful keygen persistence under the same verifying-key hex succeeds
(no fatal duplicate-key error) and rewrites the stored value to `[2]`. -/
theorem keygen_entry_overwrite_counterexample :
    ((KeygenInternal.persistEntry
        ((MemKVStore.empty : MemKVStore String (List Nat)).insert "aa" [1])
        "aa" [2]).toOption.map (fun m => m.get "aa")) = some (some [2]) ∧
    some ([2] : List Nat) ≠ some [1] := by
  refine ⟨?_, by decide⟩
  rfl

/-- C3 amended: the keygen persistence step unconditionally succeeds and
overwrites: after `kv.set(k, v)` the store maps `k` to `v` (replacing any
previous entry) and leaves every other key unchanged; no duplicate-key
check exists, so an entry is only never rewritten because distinct
successful keygen runs produce distinct verifying keys. -/
theorem keygen_persist_overwrites (kv : MemKVStore String (List Nat))
    (k k2 : String) (v : List Nat) :
    KeygenInternal.persistEntry kv k v = .ok (kv.insert k v) ∧
    (kv.insert k v).get k2 = if k2 = k then some v else kv.get k2 :=
  ⟨rfl, rfl⟩

/-- C4: when the signing path ends with `SelfNotInSigners`, the `sign` job
surface returns an error value (an `Error::Other` carrying the text
"Self not in signers list, this is a valid case"), not a
success-without-output: the result is not `Ok`. -/
theorem sign_self_not_in_signers_reports_error :
    signJobMapResult
        (.error .selfNotInSigners : Except SignJobError (Option (List Nat))) =
      .error (.other "Self not in signers list, this is a valid case") ∧
    (signJobMapResult
        (.error .selfNotInSigners : Except SignJobError (Option (List Nat)))).isOk
      = false :=
  ⟨rfl, rfl⟩

/-- C5: the `sign` job multiplexes its transport on the stream key
derived from `keccak256("keygen" ++ call_id_le)` — the same preimage the
keygen job uses — and not on the `"signing"`-prefixed preimage of
`signing_network_backend`, so a keygen run and a signing run with the
same call id share a stream key rather than having distinct ones. -/
theorem sign_job_uses_keygen_stream_key (callId : Nat) :
    signJobStreamKeyInput callId = keygenStreamKeyInput callId ∧
    signJobStreamKeyInput callId ≠ signingStreamKeyInput callId := by
  refine ⟨rfl, ?_⟩
  intro h
  have h2 := congrArg List.head? h
  rw [show (signJobStreamKeyInput callId).head? = some 107 from rfl,
      show (signingStreamKeyInput callId).head? = some 115 from rfl] at h2
  exact absurd h2 (by decide)

/-- C6: on a duplicate round-2 package from the same sender,
`keygen_internal` hits the `assert!(old.is_none(), ...)` and aborts the
process (here: the `assertDuplicate` outcome), instead of failing the run
with `IoError::RouteReceivedError`. -/
theorem keygen_internal_duplicate_asserts :
    KeygenInternal.recvLoop (α := Nat) 1 2 [] [(2, 10), (2, 11)] =
      KeygenInternal.RecvOutcome.assertDuplicate 2 :=
  rfl

/-- Helper: when every collected sender has a verifying share in the
public key package, the blame-collection loop succeeds and returns
exactly the failing senders, converted through `as_u16`, in collection
order. -/
theorem Sign.collectBlames_eq_filter {V S : Type} (vshares : List (Nat × V))
    (verify : Nat → V → S → Bool) (shares : List (Nat × S))
    (hlook : ∀ p ∈ shares, (btreeGet p.1 vshares).isSome = true) :
    Sign.collectBlames vshares verify shares =
      .ok ((shares.filter (Sign.failsVerify vshares verify)).map
        (fun p => IdentifierWrapper.asU16 p.1)) := by
  induction shares with
  | nil => rfl
  | cons p rest ih =>
    have hp := hlook p (List.mem_cons_self p rest)
    obtain ⟨vs, hvs⟩ := Option.isSome_iff_exists.mp hp
    have hrest := ih (fun x hx => hlook x (List.mem_cons_of_mem p hx))
    have hfails : Sign.failsVerify vshares verify p = ! verify p.1 vs p.2 := by
      unfold Sign.failsVerify
      rw [hvs]
    unfold Sign.collectBlames
    rw [hvs, hrest]
    by_cases hv : verify p.1 vs p.2
    · simp [List.filter_cons, hfails, hv]
    · simp [List.filter_cons, hfails, hv]

/-- C9: in the share-verification step, every collected pair whose
verification fails contributes `identifier_to_index(from)` to the blame
list (in collection order, exactly the failing pairs); a non-empty blame
list aborts the run with `SigningAborted::InvalidSignatureShare{blames}`
and produces no signature, and an empty one lets the engine proceed to
aggregation. -/
theorem signing_blame_and_abort {V S Sig : Type} (vshares : List (Nat × V))
    (verify : Nat → V → S → Bool) (allShares : List (Nat × S))
    (aggRes : Except FrostError Sig) (B : List Nat)
    (hlook : ∀ p ∈ allShares, (btreeGet p.1 vshares).isSome = true)
    (hB : B = (allShares.filter (Sign.failsVerify vshares verify)).map
      (fun p => IdentifierWrapper.asU16 p.1)) :
    Sign.collectBlames vshares verify allShares = .ok B ∧
    (B ≠ [] → Sign.verifyShares vshares verify allShares aggRes =
      .error (.aborted (.invalidSignatureShare B))) ∧
    (B = [] → Sign.verifyShares vshares verify allShares aggRes =
      (match aggRes with
       | .error e => Except.error (.aborted (.frost e))
       | .ok s => Except.ok s)) := by
  have hcoll : Sign.collectBlames vshares verify allShares = .ok B := by
    rw [hB]
    exact Sign.collectBlames_eq_filter vshares verify allShares hlook
  refine ⟨hcoll, ?_, ?_⟩
  · intro hne
    unfold Sign.verifyShares
    rw [hcoll]
    have : B.isEmpty = false := by
      cases B with
      | nil => exact absurd rfl hne
      | cons a l => rfl
    simp [this]
  · intro hnil
    unfold Sign.verifyShares
    rw [hcoll, hnil]
    rfl

/-- Witness for C9: two collected shares, the one from identifier 2
fails verification, so the engine aborts blaming index 1 and returns no
signature. -/
theorem signing_blame_and_abort_witness :
    Sign.collectBlames [(1, 0), (2, 0)] (fun _ _ s => s == 0)
        [(1, (0 : Nat)), (2, 5)] = .ok [1] ∧
    (([1] : List Nat) ≠ [] →
      Sign.verifyShares [(1, 0), (2, 0)] (fun _ _ s => s == 0)
        [(1, (0 : Nat)), (2, 5)] (Except.ok (99 : Nat)) =
        .error (.aborted (.invalidSignatureShare [1]))) ∧
    (([1] : List Nat) = [] →
      Sign.verifyShares [(1, 0), (2, 0)] (fun _ _ s => s == 0)
        [(1, (0 : Nat)), (2, 5)] (Except.ok (99 : Nat)) =
        (match Except.ok (99 : Nat) with
         | .error e => Except.error (.aborted (.frost e))
         | .ok s => Except.ok s)) :=
  signing_blame_and_abort [(1, 0), (2, 0)] (fun _ _ s => s == 0)
    [(1, (0 : Nat)), (2, 5)] (Except.ok (99 : Nat)) [1]
    (by decide) (by decide)

/-- Helper: membership in the honest-peer index list. -/
theorem mem_othersOf {n i j : Nat} : j ∈ othersOf n i ↔ j < n ∧ j ≠ i := by
  simp [othersOf, List.mem_filter, List.mem_range]

/-- Helper: splitting a sum over `range n` at the index `i`. -/
theorem sum_map_range_split {M : Type} [AddCommMonoid M] (c : Nat → M) :
    ∀ n i, i < n → ((List.range n).map c).sum
      = c i + (((List.range n).filter (fun j => j ≠ i)).map c).sum := by
  intro n
  induction n with
  | zero => intro i hi; omega
  | succ n ih =>
    intro i hi
    rw [List.range_succ, List.filter_append, List.map_append, List.sum_append,
        List.map_append, List.sum_append]
    by_cases h : i = n
    · subst h
      have hfilter : (List.range i).filter (fun j => j ≠ i) = List.range i := by
        apply List.filter_eq_self.mpr
        intro a ha
        have : a < i := List.mem_range.mp ha
        simp
        omega
      have hsingle : ([i].filter (fun j => j ≠ i)) = [] := by simp
      rw [hfilter, hsingle]
      simp [add_comm]
    · have hsingle : ([n].filter (fun j => j ≠ i)) = [n] := by
        simp [List.filter_cons]
        omega
      rw [ih i (by omega), hsingle]
      simp [add_assoc]

/-- Helper: the router rekeying succeeds on a list of pairs whose
indices all convert, and shifts every key by one. -/
theorem Keygen.collectIdentified_map (q : Nat) {α : Type} (l : List Nat)
    (f : Nat → α)
    (h : ∀ j ∈ l, IdentifierWrapper.tryFrom q j = some (j + 1)) :
    Keygen.collectIdentified q (l.map (fun j => (j, f j))) =
      some (l.map (fun j => (j + 1, f j))) := by
  induction l with
  | nil => rfl
  | cons a l ih =>
    have ha := h a (List.mem_cons_self a l)
    have hl := ih (fun j hj => h j (List.mem_cons_of_mem a hj))
    simp only [List.map_cons, Keygen.collectIdentified, ha, hl]

/-- Helper: association lookup after the key shift hits the entry of the
searched index. -/
theorem btreeGet_map_succ {α : Type} (f : Nat → α) (j : Nat) :
    ∀ l : List Nat, j ∈ l →
      btreeGet (j + 1) (l.map (fun k => (k + 1, f k))) = some (f j) := by
  intro l
  induction l with
  | nil => intro h; cases h
  | cons a l ih =>
    intro hj
    by_cases haj : a = j
    · subst haj
      simp [btreeGet]
    · have hmem : j ∈ l := by
        cases List.mem_cons.mp hj with
        | inl h => exact absurd h.symm haj
        | inr h => exact h
      have hne : a + 1 ≠ j + 1 := by omega
      simp only [List.map_cons, btreeGet, if_neg hne]
      exact ih hmem

/-- Helper: `part3` on the honest inputs of party `i` passes every
Feldman check and returns a public key package whose verifying key is
the sum of all constant-term commitments, own one included. -/
theorem dkg.part3_honest (q t n i : Nat) (coeffs : Nat → List (ZMod q)) :
    ∃ kp pkp,
      dkg.part3 q ⟨i + 1, coeffs i, t⟩
        ((othersOf n i).map (fun j => (j + 1, Round1Package.mk (coeffs j))))
        ((othersOf n i).map (fun j =>
          (j + 1, polyEval (coeffs j) ((i + 1 : Nat) : ZMod q)))) =
        .ok (kp, pkp) ∧
      pkp.verifyingKey = (coeffs i).headI +
        ((othersOf n i).map (fun j => (coeffs j).headI)).sum := by
  unfold dkg.part3
  have hcheck : (((othersOf n i).map (fun j =>
      (j + 1, polyEval (coeffs j) ((i + 1 : Nat) : ZMod q)))).all (fun p =>
        match btreeGet p.1 ((othersOf n i).map (fun j =>
          (j + 1, Round1Package.mk (coeffs j)))) with
        | some pkg => decide (polyEval pkg.commitment (((i + 1 : Nat) : ZMod q)) = p.2)
        | none => false)) = true := by
    apply List.all_eq_true.mpr
    intro p hp
    obtain ⟨j, hj, rfl⟩ := List.mem_map.mp hp
    rw [btreeGet_map_succ (fun k => Round1Package.mk (coeffs k)) j (othersOf n i) hj]
    exact decide_eq_true rfl
  simp only [hcheck, if_true]
  refine ⟨_, _, rfl, ?_⟩
  simp only [List.map_map]
  rfl

/-- Helper: `dkg::part1` succeeds exactly on the parameter range
`frost_core` accepts, `2 ≤ t ≤ n`, and then returns the secret package
and the commitment to the sampled coefficients. -/
theorem dkg.part1_ok (q identifier n t : Nat) (coeffs : List (ZMod q))
    (ht : 2 ≤ t) (htn : t ≤ n) :
    dkg.part1 q identifier n t coeffs =
      .ok (⟨identifier, coeffs, t⟩, ⟨coeffs⟩) := by
  have hv : dkg.validateNumOfSigners t n = .ok () := by
    unfold dkg.validateNumOfSigners
    rw [if_neg (by omega), if_neg (by omega), if_neg (by omega)]
  unfold dkg.part1
  rw [hv]

/-- C1 counterexample: at `(t, n) = (1, 2)` — inside the claimed range
`1 ≤ t ≤ n` — the honest run of party 0 aborts with
`KeygenAborted::Frost(InvalidMinSigners)` from
`frost_core::keys::validate_num_of_signers` inside `dkg::part1`, so the
party outputs no `PublicKeyPackage` at all. -/
theorem dkg_t1_aborts_counterexample :
    (Keygen.run 65537 1 2 0 [((0 : Nat) : ZMod 65537) + 1]
        (Keygen.honestRecvRound1 65537 2
          (fun j => [(j : ZMod 65537) + 1]) 0)
        (Keygen.honestRecvRound2 65537 2
          (fun j => [(j : ZMod 65537) + 1]) 0)).1 =
      .error (.aborted .invalidMinSigners) :=
  rfl

/-- C1 (amended): for every `(t, n)` with `2 ≤ t ≤ n` — the range
`frost_core`'s `validate_num_of_signers` accepts — and the fully honest
`n`-party execution in which every party `i` in `[0, n)` runs the DKG
engine `run` on its own sampled coefficients and the router delivers to
it exactly the round-1 broadcasts and round-2 shares of the other
parties, every party terminates with `Ok` and its `PublicKeyPackage`
carries the same verifying key, namely the sum of all parties'
constant-term commitments; at `t = 1` or `n = 1` the engine instead
aborts with `KeygenAborted::Frost` (see the counterexample). -/
theorem dkg_honest_terminates_and_agrees (q t n : Nat)
    (coeffs : Nat → List (ZMod q)) (hq : U16_MOD < q) (ht : 2 ≤ t)
    (htn : t ≤ n) (hn : n ≤ 65535)
    (hlen : ∀ j, j < n → (coeffs j).length = t) (i : Nat) (hi : i < n) :
    ∃ kp pkp,
      (Keygen.run q t n i (coeffs i)
          (Keygen.honestRecvRound1 q n coeffs i)
          (Keygen.honestRecvRound2 q n coeffs i)).1 = .ok (kp, pkp) ∧
      pkp.verifyingKey = groupPublicKey q n coeffs := by
  have hme : IdentifierWrapper.tryFrom q i = some (i + 1) := by
    apply IdentifierWrapper.tryFrom_eq_of_lt q i hq
    unfold U16_MOD
    omega
  have hconv : ∀ j ∈ othersOf n i,
      IdentifierWrapper.tryFrom q j = some (j + 1) := by
    intro j hj
    obtain ⟨hjn, -⟩ := mem_othersOf.mp hj
    apply IdentifierWrapper.tryFrom_eq_of_lt q j hq
    unfold U16_MOD
    omega
  have hc1 : Keygen.collectIdentified q (Keygen.honestRecvRound1 q n coeffs i) =
      some ((othersOf n i).map (fun j => (j + 1, Round1Package.mk (coeffs j)))) :=
    Keygen.collectIdentified_map q (othersOf n i)
      (fun j => Round1Package.mk (coeffs j)) hconv
  have hpart1 : dkg.part1 q (i + 1) n t (coeffs i) =
      .ok (⟨i + 1, coeffs i, t⟩, ⟨coeffs i⟩) :=
    dkg.part1_ok q (i + 1) n t (coeffs i) ht htn
  have hc2 : Keygen.collectIdentified q (Keygen.honestRecvRound2 q n coeffs i) =
      some ((othersOf n i).map (fun j =>
        (j + 1, polyEval (coeffs j) ((i + 1 : Nat) : ZMod q)))) :=
    Keygen.collectIdentified_map q (othersOf n i)
      (fun j => polyEval (coeffs j) ((i + 1 : Nat) : ZMod q)) hconv
  obtain ⟨kp, pkp, hpart3, hkey⟩ := dkg.part3_honest q t n i coeffs
  refine ⟨kp, pkp, ?_, ?_⟩
  · unfold Keygen.run
    rw [if_neg (show ¬(t < 1 ∨ t > n) by omega)]
    simp only [hme, hpart1, dkg.part2, hc1, hc2, hpart3]
  · rw [hkey]
    unfold groupPublicKey othersOf
    exact (sum_map_range_split (fun j => (coeffs j).headI) n i hi).symm

/-- Witness for C1: a 2-of-2 honest run over the field with 65537
elements, party 0, with degree-1 polynomials. -/
theorem dkg_honest_terminates_and_agrees_witness :
    ∃ kp pkp,
      (Keygen.run 65537 2 2 0 [((0 : Nat) : ZMod 65537) + 1, 1]
          (Keygen.honestRecvRound1 65537 2
            (fun j => [(j : ZMod 65537) + 1, 1]) 0)
          (Keygen.honestRecvRound2 65537 2
            (fun j => [(j : ZMod 65537) + 1, 1]) 0)).1 = .ok (kp, pkp) ∧
      pkp.verifyingKey = groupPublicKey 65537 2
        (fun j => [(j : ZMod 65537) + 1, 1]) :=
  dkg_honest_terminates_and_agrees 65537 2 2
    (fun j => [(j : ZMod 65537) + 1, 1]) (by norm_num [U16_MOD])
    (by norm_num) (by norm_num) (by norm_num) (fun j hj => rfl) 0 (by norm_num)
